import Mathlib

/-!
Shallow embedding of the Davis Weather Monitor II serial driver (`wmII.py`):
the CRC16-XMODEM routine, the BCD codec, and the protocol engine
(`get_acknowledge`, `ReadWRD`, `WriteWRD`, `SendLOOP`, `get_readings`,
`get_readings_with_retry`, `get_time`, `set_time`, `parse_readings`).

The serial port is modelled as a `Port`: a list of bytes that will arrive
before the read timeout (`input`; `read(n)` returns up to `n` of them), plus
the list of write calls made so far (`written`, one byte-list per
`serial_port.write` call).  Python exceptions are modelled by the `Err`
inductive; every operation returns `Except Err _ × Port` so the port state
(in particular the write trace) is observable even on failure.
-/

set_option maxRecDepth 16000

namespace WmII

/-- The driver's CRC16 table (`CRC16_XMODEM_TABLE` in the source). -/
def CRC16_XMODEM_TABLE : List Nat := [
  0x0000, 0x1021, 0x2042, 0x3063, 0x4084, 0x50a5, 0x60c6, 0x70e7,
  0x8108, 0x9129, 0xa14a, 0xb16b, 0xc18c, 0xd1ad, 0xe1ce, 0xf1ef,
  0x1231, 0x0210, 0x3273, 0x2252, 0x52b5, 0x4294, 0x72f7, 0x62d6,
  0x9339, 0x8318, 0xb37b, 0xa35a, 0xd3bd, 0xc39c, 0xf3ff, 0xe3de,
  0x2462, 0x3443, 0x0420, 0x1401, 0x64e6, 0x74c7, 0x44a4, 0x5485,
  0xa56a, 0xb54b, 0x8528, 0x9509, 0xe5ee, 0xf5cf, 0xc5ac, 0xd58d,
  0x3653, 0x2672, 0x1611, 0x0630, 0x76d7, 0x66f6, 0x5695, 0x46b4,
  0xb75b, 0xa77a, 0x9719, 0x8738, 0xf7df, 0xe7fe, 0xd79d, 0xc7bc,
  0x48c4, 0x58e5, 0x6886, 0x78a7, 0x0840, 0x1861, 0x2802, 0x3823,
  0xc9cc, 0xd9ed, 0xe98e, 0xf9af, 0x8948, 0x9969, 0xa90a, 0xb92b,
  0x5af5, 0x4ad4, 0x7ab7, 0x6a96, 0x1a71, 0x0a50, 0x3a33, 0x2a12,
  0xdbfd, 0xcbdc, 0xfbbf, 0xeb9e, 0x9b79, 0x8b58, 0xbb3b, 0xab1a,
  0x6ca6, 0x7c87, 0x4ce4, 0x5cc5, 0x2c22, 0x3c03, 0x0c60, 0x1c41,
  0xedae, 0xfd8f, 0xcdec, 0xddcd, 0xad2a, 0xbd0b, 0x8d68, 0x9d49,
  0x7e97, 0x6eb6, 0x5ed5, 0x4ef4, 0x3e13, 0x2e32, 0x1e51, 0x0e70,
  0xff9f, 0xefbe, 0xdfdd, 0xcffc, 0xbf1b, 0xaf3a, 0x9f59, 0x8f78,
  0x9188, 0x81a9, 0xb1ca, 0xa1eb, 0xd10c, 0xc12d, 0xf14e, 0xe16f,
  0x1080, 0x00a1, 0x30c2, 0x20e3, 0x5004, 0x4025, 0x7046, 0x6067,
  0x83b9, 0x9398, 0xa3fb, 0xb3da, 0xc33d, 0xd31c, 0xe37f, 0xf35e,
  0x02b1, 0x1290, 0x22f3, 0x32d2, 0x4235, 0x5214, 0x6277, 0x7256,
  0xb5ea, 0xa5cb, 0x95a8, 0x8589, 0xf56e, 0xe54f, 0xd52c, 0xc50d,
  0x34e2, 0x24c3, 0x14a0, 0x0481, 0x7466, 0x6447, 0x5424, 0x4405,
  0xa7db, 0xb7fa, 0x8799, 0x97b8, 0xe75f, 0xf77e, 0xc71d, 0xd73c,
  0x26d3, 0x36f2, 0x0691, 0x16b0, 0x6657, 0x7676, 0x4615, 0x5634,
  0xd94c, 0xc96d, 0xf90e, 0xe92f, 0x99c8, 0x89e9, 0xb98a, 0xa9ab,
  0x5844, 0x4865, 0x7806, 0x6827, 0x18c0, 0x08e1, 0x3882, 0x28a3,
  0xcb7d, 0xdb5c, 0xeb3f, 0xfb1e, 0x8bf9, 0x9bd8, 0xabbb, 0xbb9a,
  0x4a75, 0x5a54, 0x6a37, 0x7a16, 0x0af1, 0x1ad0, 0x2ab3, 0x3a92,
  0xfd2e, 0xed0f, 0xdd6c, 0xcd4d, 0xbdaa, 0xad8b, 0x9de8, 0x8dc9,
  0x7c26, 0x6c07, 0x5c64, 0x4c45, 0x3ca2, 0x2c83, 0x1ce0, 0x0cc1,
  0xef1f, 0xff3e, 0xcf5d, 0xdf7c, 0xaf9b, 0xbfba, 0x8fd9, 0x9ff8,
  0x6e17, 0x7e36, 0x4e55, 0x5e74, 0x2e93, 0x3eb2, 0x0ed1, 0x1ef0]

/-- `table[i]` lookup used by `crc16` (a Python list index; in every reachable
state the index is below 256, so the default is never hit there). -/
def tbl (i : Nat) : Nat := CRC16_XMODEM_TABLE.getD i 0

/-- One iteration of the loop body of `Station.crc16`:
`crc = ((crc<<8)&0xff00) ^ table[((crc>>8)&0xff)^ord(byte)]`. -/
def crcStep (crc b : Nat) : Nat :=
  ((crc <<< 8) &&& 0xff00) ^^^ tbl (((crc >>> 8) &&& 0xff) ^^^ b)

/-- `Station.crc16(data, crc, table)` with `table = CRC16_XMODEM_TABLE`. -/
def crc16 (data : List Nat) (crc : Nat) : Nat :=
  (data.foldl crcStep crc) &&& 0xffff

/-- `Station.toBCD`: silently 0 outside [0,99], else `((n/10)<<4) | (n%10)`
(Python integer division; in range the value is a nonnegative byte). -/
def toBCD (n : Int) : Nat :=
  if n < 0 ∨ 99 < n then 0 else ((n.toNat / 10) <<< 4) ||| (n.toNat % 10)

/-- `Station.fromBCD`: `(n>>4)*10 + (n&0x0F)`. -/
def fromBCD (n : Nat) : Nat := (n >>> 4) * 10 + (n &&& 0x0F)

/-- Python exceptions raised by the driver, by site and message:
`ackEmpty`/`ackNotEqual` are the two `WeeWxIOError`s of `get_acknowledge`;
`invalidHeader`/`invalidLength`/`crcError` the three of `get_readings`;
`retriesExceeded` is `weewx.RetriesExceeded` carrying the attempt count;
`nameError` is the `NameError` from reading the never-assigned `bankval`;
`typeError`/`indexError`/`valueError` model `ord('')`, `d[1]` on a short
string, and `chr`/`datetime` range failures respectively. -/
inductive Err where
  | ackEmpty : Err
  | ackNotEqual (b : Nat) : Err
  | invalidHeader (c : List Nat) : Err
  | invalidLength (n : Nat) : Err
  | crcError : Err
  | retriesExceeded (n : Nat) : Err
  | nameError : Err
  | typeError : Err
  | indexError : Err
  | valueError : Err
deriving DecidableEq

/-- The spec's error taxonomy (section 7), plus kinds for the Python errors
that fall outside it. -/
inductive ErrKind where
  | acknowledge : ErrKind
  | framing : ErrKind
  | checksum : ErrKind
  | link : ErrKind
  | retries : ErrKind
  | undefinedVariable : ErrKind
  | pythonTypeErr : ErrKind
  | pythonIndexErr : ErrKind
  | pythonValueErr : ErrKind
deriving DecidableEq

/-- Classification of each raised error under the spec's taxonomy. -/
def errKind : Err → ErrKind
  | .ackEmpty => .acknowledge
  | .ackNotEqual _ => .acknowledge
  | .invalidHeader _ => .framing
  | .invalidLength _ => .framing
  | .crcError => .checksum
  | .retriesExceeded _ => .retries
  | .nameError => .undefinedVariable
  | .typeError => .pythonTypeErr
  | .indexError => .pythonIndexErr
  | .valueError => .pythonValueErr

/-- Whether `except (serial.serialutil.SerialException, weewx.WeeWxIOError)`
in `get_readings_with_retry` catches the error: all the driver's
`WeeWxIOError`s (and `RetriesExceeded`, a `WeeWxIOError` subclass) are
caught; the plain Python errors are not. -/
def isCaught : Err → Bool
  | .nameError => false
  | .typeError => false
  | .indexError => false
  | .valueError => false
  | _ => true

/-- Serial-port state: `input` is the byte sequence that will arrive before
the read timeout (a `read(n)` consumes up to `n` of them and returns fewer,
possibly zero, when it runs out); `written` records each
`serial_port.write` call as one byte list. -/
structure Port where
  input : List Nat
  written : List (List Nat)
deriving DecidableEq

/-- One `serial_port.write(frame)` call. -/
def pWrite (p : Port) (frame : List Nat) : Port :=
  { p with written := p.written ++ [frame] }

/-- `Station.get_acknowledge`: read one byte; empty → error, ≠ 0x06 → error. -/
def get_acknowledge (p : Port) : Except Err Unit × Port :=
  match p.input with
  | [] => (.error .ackEmpty, p)
  | b :: rest =>
    if b = 6 then (.ok (), { p with input := rest })
    else (.error (.ackNotEqual b), { p with input := rest })

/-- The command frame written by `ReadWRD`:
`"WRD" + chr((n<<4)|bankval) + chr(addr & 0xff) + chr(0xd)`. -/
def wrdFrame (n bankval addr : Nat) : List Nat :=
  [87, 82, 68, (n <<< 4) ||| bankval, addr &&& 0xff, 13]

/-- Body of `Station.ReadWRD` once `bankval` is resolved.  `chr` demands an
argument below 256, and is evaluated while the command string is built,
before anything is written; after the ACK, `read((n+1)/2)` (Python integer
division) returns up to that many bytes. -/
def readWRDgo (n bankval addr : Nat) (p : Port) : Except Err (List Nat) × Port :=
  if (n <<< 4) ||| bankval < 256 then
    match get_acknowledge (pWrite p (wrdFrame n bankval addr)) with
    | (.error e, p2) => (.error e, p2)
    | (.ok _, p2) =>
      (.ok (p2.input.take ((n + 1) / 2)), { p2 with input := p2.input.drop ((n + 1) / 2) })
  else (.error .valueError, p)

/-- `Station.ReadWRD`: `bankval` is assigned only for banks 0 (code 2) and
1 (code 4); any other bank leaves it undefined and raises `NameError`
before any byte is written. -/
def ReadWRD (n bank addr : Nat) (p : Port) : Except Err (List Nat) × Port :=
  match bank with
  | 0 => readWRDgo n 2 addr p
  | 1 => readWRDgo n 4 addr p
  | _ => (.error .nameError, p)

/-- The command frame written by `WriteWRD`:
`"WWR" + chr(bankval|(n<<4)) + chr(addr & 0xff) + data + chr(0xd)`. -/
def wwrFrame (n bankval addr : Nat) (data : List Nat) : List Nat :=
  [87, 87, 82, bankval ||| (n <<< 4), addr &&& 0xff] ++ data ++ [13]

/-- Body of `Station.WriteWRD` once `bankval` is resolved. -/
def writeWRDgo (n bankval addr : Nat) (data : List Nat) (p : Port) :
    Except Err Unit × Port :=
  if bankval ||| (n <<< 4) < 256 then
    get_acknowledge (pWrite p (wwrFrame n bankval addr data))
  else (.error .valueError, p)

/-- `Station.WriteWRD`: bank 0 → code 1, bank 1 → code 3, otherwise the
`NameError` on the unassigned `bankval`. -/
def WriteWRD (n bank addr : Nat) (data : List Nat) (p : Port) :
    Except Err Unit × Port :=
  match bank with
  | 0 => writeWRDgo n 1 addr data p
  | 1 => writeWRDgo n 3 addr data p
  | _ => (.error .nameError, p)

/-- `Station.SendLOOP`: write `"LOOP" + chr(255) + chr(255) + chr(0xd)`,
then the ACK handshake. -/
def SendLOOP (p : Port) : Except Err Unit × Port :=
  get_acknowledge (pWrite p [76, 79, 79, 80, 255, 255, 13])

/-- `Station.get_readings`: LOOP, 1 header byte (must exist and equal 1,
else "Invalid header"), 17 payload bytes (short read → "Invalid Lenght"),
CRC16 over the payload must reduce to 0. -/
def get_readings (p : Port) : Except Err (List Nat) × Port :=
  match SendLOOP p with
  | (.error e, p1) => (.error e, p1)
  | (.ok _, p1) =>
    match p1.input with
    | [] => (.error (.invalidHeader []), p1)
    | b :: rest =>
      let p2 : Port := { p1 with input := rest }
      if b ≠ 1 then (.error (.invalidHeader [b]), p2)
      else
        let buf := p2.input.take 17
        let p3 : Port := { p2 with input := p2.input.drop 17 }
        if buf.length ≠ 17 then (.error (.invalidLength buf.length), p3)
        else if crc16 buf 0 ≠ 0 then (.error .crcError, p3)
        else (.ok buf, p3)

/-- The retry loop of `Station.get_readings_with_retry`, with the outcome of
the k-th `get_readings()` call abstracted as `f k` and the number of calls
made returned alongside the result.  `fuel` is the number of loop
iterations left (`range(0, max_tries)`), `k` the next attempt index; after
the loop Python's `for`-`else` raises `RetriesExceeded(max_tries)`. -/
def retryGo (f : Nat → Except Err (List Nat)) (maxTries : Nat) :
    Nat → Nat → Except Err (List Nat) × Nat
  | 0, k => (.error (.retriesExceeded maxTries), k)
  | fuel + 1, k =>
    match f k with
    | .ok buf => (.ok buf, k + 1)
    | .error e =>
      if isCaught e then retryGo f maxTries fuel (k + 1)
      else (.error e, k + 1)

/-- `Station.get_readings_with_retry(max_tries, ...)` over the abstracted
attempt outcomes, paired with the number of `get_readings` invocations. -/
def get_readings_with_retry (f : Nat → Except Err (List Nat)) (maxTries : Nat) :
    Except Err (List Nat) × Nat :=
  retryGo f maxTries maxTries 0

/-- The fields of Python's `time.localtime(t)` that `set_time` consumes. -/
structure TimeFields where
  year : Int
  month : Int
  day : Int
  hour : Int
  min : Int
  sec : Int

/-- `Station.get_time`.  The two WRD reads and the BCD decoding follow the
source; the final `datetime.datetime(year, month, day, hour, min, sec)` /
`time.mktime` conversion is external-library behaviour and is abstracted
as the predicate `v month day hour min sec` deciding whether that
construction succeeds (its numeric result, unused by `set_time`, is
returned here as the raw field tuple).  `ord('')` on a short first reply is
a `TypeError`; `d[1]` on a short second reply is an `IndexError`. -/
def get_time (v : Nat → Nat → Nat → Nat → Nat → Bool) (p : Port) :
    Except Err (Nat × Nat × Nat × Nat × Nat) × Port :=
  match ReadWRD 6 1 0xBE p with
  | (.error e, p1) => (.error e, p1)
  | (.ok d, p1) =>
    match d with
    | b0 :: b1 :: b2 :: _ =>
      match ReadWRD 3 1 0xC8 p1 with
      | (.error e, p2) => (.error e, p2)
      | (.ok d2, p2) =>
        match d2 with
        | [] => (.error .typeError, p2)
        | [_] => (.error .indexError, p2)
        | c0 :: c1 :: _ =>
          if v c1 (fromBCD c0) (fromBCD b0) (fromBCD b1) (fromBCD b2) then
            (.ok (fromBCD b0, fromBCD b1, fromBCD b2, fromBCD c0, c1), p2)
          else (.error .valueError, p2)
    | _ => (.error .typeError, p1)

/-- `Station.set_time(t)`: first `self.get_time()` (result discarded,
errors propagate), then `WriteWRD(6, 1, 0xBE, ...)` with the BCD time and
`WriteWRD(3, 1, 0xC8, ...)` with the BCD day and raw month byte.
`time.localtime` is abstracted as `lt`; `chr(month)` demands
`0 ≤ month < 256` and is evaluated while the data string is built, before
the second write. -/
def set_time (v : Nat → Nat → Nat → Nat → Nat → Bool) (lt : Int → TimeFields)
    (t : Int) (p : Port) : Except Err Unit × Port :=
  match get_time v p with
  | (.error e, p1) => (.error e, p1)
  | (.ok _, p1) =>
    let f := lt t
    match WriteWRD 6 1 0xBE [toBCD f.hour, toBCD f.min, toBCD f.sec] p1 with
    | (.error e, p2) => (.error e, p2)
    | (.ok _, p2) =>
      if 0 ≤ f.month ∧ f.month < 256 then
        WriteWRD 3 1 0xC8 [toBCD f.day, f.month.toNat] p2
      else (.error .valueError, p2)

/-- The engine's calibration state (`Station.__init__` fields). -/
structure Calib where
  tp1cal : Int
  tp2cal : Int
  rncal : Int
  hm1cal : Int
  hm2cal : Int
  barcal : Int
  windcal : Int

/-- The defaults set in `Station.__init__`. -/
def defaultCalib : Calib :=
  { tp1cal := 0, tp2cal := 0, rncal := 100, hm1cal := 0, hm2cal := 0,
    barcal := 0, windcal := 1600 }

/-- struct `<h`: signed little-endian 16-bit integer from two bytes. -/
def i16 (lo hi : Nat) : Int :=
  let u := lo + 256 * hi
  if u < 32768 then (u : Int) else (u : Int) - 65536

/-- struct.pack `<h` of an in-range value, little-endian two's complement. -/
def int16le (v : Int) : List Nat :=
  [((v % 65536).toNat) % 256, ((v % 65536).toNat) / 256]

/-- The decoded observation dictionary built by `parse_readings`.  Python
float arithmetic is modelled over `ℚ` (every value the claims evaluate is
exactly representable and exactly computed in binary floating point). -/
structure WData where
  windSpeed : ℚ
  windDir : Int
  outTemp : ℚ
  rain_total : ℚ
  pressure : ℚ
  inTemp : ℚ
  outHumidity : Int
  inHumidity : Int
deriving DecidableEq

/-- `Station.parse_readings`: unpack `<hhBhhBBhhh` from the 17-byte payload
and apply the calibration scaling.  A payload of any other length calls the
undefined name `warn` and dies with a `NameError` (modelled as `none`). -/
def parse_readings (cal : Calib) (raw : List Nat) : Option WData :=
  if raw.length ≠ 17 then none
  else
    let buf0 := i16 (raw.getD 0 0) (raw.getD 1 0)
    let buf1 := i16 (raw.getD 2 0) (raw.getD 3 0)
    let buf2 : Int := raw.getD 4 0
    let buf3 := i16 (raw.getD 5 0) (raw.getD 6 0)
    let buf4 := i16 (raw.getD 7 0) (raw.getD 8 0)
    let buf5 : Int := raw.getD 9 0
    let buf6 : Int := raw.getD 10 0
    let buf7 := i16 (raw.getD 11 0) (raw.getD 12 0)
    some
      { windSpeed := ((buf2 : ℚ) * 1600) / (cal.windcal : ℚ)
        windDir := buf3
        outTemp := ((buf1 : ℚ) + (cal.tp2cal : ℚ)) / 10
        rain_total := (buf7 : ℚ) / (1 * (cal.rncal : ℚ))
        pressure := ((buf4 : ℚ) + (cal.barcal : ℚ)) / 1000
        inTemp := ((buf0 : ℚ) + (cal.tp1cal : ℚ)) / 10
        outHumidity := buf6 + cal.hm2cal
        inHumidity := buf5 + cal.hm1cal }

/-- C1, counterexample: `ReadWRD` with byte count n = 6 reads 3 response
bytes after the ACK even though 4 are available, whereas
⌈(6+1)/2⌉ = (6+2)/2 = 4; the claimed count `ceil((n+1)/2)` is wrong for
even n. -/
theorem readWRD_count_cex :
    (ReadWRD 6 0 0 ⟨[6, 11, 22, 33, 44], []⟩).1 = .ok [11, 22, 33] ∧
    List.length [11, 22, 33] ≠ (6 + 2) / 2 :=
  ⟨rfl, by decide⟩

/-- C1, amended: for every WRD read command issued with byte count n (any
valid bank, command byte in `chr` range), after the ACK byte the engine
requests exactly (n+1)/2 bytes — integer division, truncating, i.e.
⌈n/2⌉ — from the transport, and receives exactly that many whenever they
are available, before interpreting them. -/
theorem readWRD_read_count (n addr bank bankval : Nat) (rest : List Nat)
    (w : List (List Nat))
    (hbank : bank = 0 ∧ bankval = 2 ∨ bank = 1 ∧ bankval = 4)
    (hchr : (n <<< 4) ||| bankval < 256) :
    ReadWRD n bank addr ⟨6 :: rest, w⟩ =
      (.ok (rest.take ((n + 1) / 2)),
        ⟨rest.drop ((n + 1) / 2), w ++ [wrdFrame n bankval addr]⟩) ∧
    ((n + 1) / 2 ≤ rest.length → (rest.take ((n + 1) / 2)).length = (n + 1) / 2) := by
  constructor
  · rcases hbank with ⟨rfl, rfl⟩ | ⟨rfl, rfl⟩ <;>
      simp [ReadWRD, readWRDgo, hchr, get_acknowledge, pWrite]
  · intro h
    simp [List.length_take, Nat.min_eq_left h]

/-- C1, witness for the amended theorem at n = 6, bank 1, addr 0xBE. -/
theorem readWRD_read_count_witness :
    ReadWRD 6 1 0xBE ⟨6 :: [1, 2, 3, 4], []⟩ =
      (.ok ([1, 2, 3, 4].take ((6 + 1) / 2)),
        ⟨[1, 2, 3, 4].drop ((6 + 1) / 2), [] ++ [wrdFrame 6 4 0xBE]⟩) ∧
    ((6 + 1) / 2 ≤ [1, 2, 3, 4].length →
      ([1, 2, 3, 4].take ((6 + 1) / 2)).length = (6 + 1) / 2) :=
  readWRD_read_count 6 0xBE 1 4 [1, 2, 3, 4] [] (Or.inr ⟨rfl, rfl⟩) (by decide)

/-- C3: on the 17-byte little-endian packing of the raw tuple
(100, 200, 10, 90, 30000, 45, 50, 500, 0, 0) under `<hhBhhBBhhh`, with the
default calibration, `parse_readings` yields inTemp 10.0, outTemp 20.0,
windSpeed 10.0, windDir 90, pressure 30.0, inHumidity 45, outHumidity 50
and rain_total 5.0. -/
theorem parse_readings_scaling :
    parse_readings defaultCalib
      (int16le 100 ++ int16le 200 ++ [10] ++ int16le 90 ++ int16le 30000 ++
        [45] ++ [50] ++ int16le 500 ++ int16le 0 ++ int16le 0) =
      some { windSpeed := 10, windDir := 90, outTemp := 20, rain_total := 5,
             pressure := 30, inTemp := 10, outHumidity := 50, inHumidity := 45 } := by
  have hpk : int16le 100 ++ int16le 200 ++ [10] ++ int16le 90 ++ int16le 30000 ++
      [45] ++ [50] ++ int16le 500 ++ int16le 0 ++ int16le 0 =
      [100, 0, 200, 0, 10, 90, 0, 48, 117, 45, 50, 244, 1, 0, 0, 0, 0] := by decide
  rw [hpk]
  norm_num [parse_readings, i16, defaultCalib]

/-- C6: for all integers n in [0,99], `fromBCD (toBCD n) = n`, and for every
integer outside [0,99], `toBCD n = 0` (it returns 0 rather than raising). -/
theorem bcd_roundtrip_and_clamp :
    (∀ n : Int, 0 ≤ n → n ≤ 99 → (fromBCD (toBCD n) : Int) = n) ∧
    (∀ n : Int, n < 0 ∨ 99 < n → toBCD n = 0) := by
  constructor
  · intro n h0 h99
    have hn : (n.toNat : Int) = n := Int.toNat_of_nonneg h0
    have hlt : n.toNat < 100 := by omega
    have key : ∀ m : Nat, m < 100 → fromBCD (((m / 10) <<< 4) ||| (m % 10)) = m := by
      decide
    have hcond : ¬(n < 0 ∨ 99 < n) := by omega
    rw [toBCD, if_neg hcond, key n.toNat hlt, hn]
  · intro n h
    rw [toBCD, if_pos h]

/-- C6, witness: round trip at 37, clamping at -5 and at 100. -/
theorem bcd_roundtrip_witness :
    (fromBCD (toBCD 37) : Int) = 37 ∧ toBCD (-5) = 0 ∧ toBCD 100 = 0 :=
  ⟨bcd_roundtrip_and_clamp.1 37 (by decide) (by decide),
   bcd_roundtrip_and_clamp.2 (-5) (Or.inl (by decide)),
   bcd_roundtrip_and_clamp.2 100 (Or.inr (by decide))⟩

/-- C7: the acknowledge handshake reads exactly one byte (the returned port
has consumed exactly one byte) and succeeds only on 0x06; any other byte
value raises `AcknowledgeError` naming the byte, and zero bytes read raises
`AcknowledgeError` with a distinct message but the same error kind. -/
theorem get_acknowledge_spec (b : Nat) (rest : List Nat) (w : List (List Nat))
    (hb : b ≠ 6) :
    get_acknowledge ⟨[], w⟩ = (.error .ackEmpty, ⟨[], w⟩) ∧
    get_acknowledge ⟨b :: rest, w⟩ = (.error (.ackNotEqual b), ⟨rest, w⟩) ∧
    get_acknowledge ⟨6 :: rest, w⟩ = (.ok (), ⟨rest, w⟩) ∧
    errKind .ackEmpty = .acknowledge ∧
    errKind (.ackNotEqual b) = .acknowledge ∧
    Err.ackEmpty ≠ Err.ackNotEqual b := by
  refine ⟨rfl, ?_, rfl, rfl, rfl, by simp⟩
  simp [get_acknowledge, hb]

/-- C7, witness at response byte 0x05. -/
theorem get_acknowledge_witness :
    get_acknowledge ⟨[], []⟩ = (.error .ackEmpty, ⟨[], []⟩) ∧
    get_acknowledge ⟨5 :: [], []⟩ = (.error (.ackNotEqual 5), ⟨[], []⟩) ∧
    get_acknowledge ⟨6 :: [], []⟩ = (.ok (), ⟨[], []⟩) ∧
    errKind .ackEmpty = .acknowledge ∧
    errKind (.ackNotEqual 5) = .acknowledge ∧
    Err.ackEmpty ≠ Err.ackNotEqual 5 := by
  have h := get_acknowledge_spec 5 [] [] (by decide)
  exact ⟨h.1, h.2.1, h.2.2.1, h.2.2.2.1, h.2.2.2.2.1, h.2.2.2.2.2⟩

/-- C9: for every bank outside {0, 1}, `bankval` is never assigned, so both
`ReadWRD` and `WriteWRD` fail with the `NameError` before any byte is
written to the transport (the port, including its write trace, is returned
unchanged), and that failure is not one of the protocol error kinds. -/
theorem wrd_bank_undefined (n bank addr : Nat) (data : List Nat) (p : Port)
    (h0 : bank ≠ 0) (h1 : bank ≠ 1) :
    ReadWRD n bank addr p = (.error .nameError, p) ∧
    WriteWRD n bank addr data p = (.error .nameError, p) ∧
    errKind .nameError = .undefinedVariable ∧
    errKind .nameError ≠ .acknowledge ∧
    errKind .nameError ≠ .framing ∧
    errKind .nameError ≠ .checksum ∧
    errKind .nameError ≠ .link := by
  obtain ⟨b, rfl⟩ : ∃ b, bank = b + 2 := ⟨bank - 2, by omega⟩
  exact ⟨rfl, rfl, rfl, by decide, by decide, by decide, by decide⟩

/-- C9, witness at bank 2. -/
theorem wrd_bank_undefined_witness :
    ReadWRD 4 2 7 ⟨[6, 1, 2], []⟩ = (.error .nameError, ⟨[6, 1, 2], []⟩) ∧
    WriteWRD 4 2 7 [9] ⟨[6, 1, 2], []⟩ = (.error .nameError, ⟨[6, 1, 2], []⟩) ∧
    errKind .nameError = .undefinedVariable ∧
    errKind .nameError ≠ .acknowledge ∧
    errKind .nameError ≠ .framing ∧
    errKind .nameError ≠ .checksum ∧
    errKind .nameError ≠ .link :=
  wrd_bank_undefined 4 2 7 [9] ⟨[6, 1, 2], []⟩ (by decide) (by decide)

/-- If every attempt in the window fails with a caught error, the retry loop
runs through all its fuel and raises `RetriesExceeded maxTries`. -/
theorem retryGo_all_fail (f : Nat → Except Err (List Nat)) (maxTries : Nat) :
    ∀ fuel k, (∀ i, k ≤ i → i < k + fuel → ∃ e, f i = .error e ∧ isCaught e = true) →
      retryGo f maxTries fuel k = (.error (.retriesExceeded maxTries), k + fuel) := by
  intro fuel
  induction fuel with
  | zero => intro k _; rfl
  | succ m ih =>
    intro k h
    obtain ⟨e, he, hc⟩ := h k (Nat.le_refl k) (by omega)
    have hrec := ih (k + 1) (fun i h1 h2 => h i (by omega) (by omega))
    simp only [retryGo, he, hc, if_pos]
    rw [hrec]
    congr 1
    omega

/-- If the j-th attempt in the window succeeds after j caught failures, the
retry loop returns its payload after exactly j+1 calls. -/
theorem retryGo_succeeds (f : Nat → Except Err (List Nat)) (maxTries fuel : Nat) :
    ∀ k j buf, j < fuel → f (k + j) = .ok buf →
      (∀ i, k ≤ i → i < k + j → ∃ e, f i = .error e ∧ isCaught e = true) →
      retryGo f maxTries fuel k = (.ok buf, k + j + 1) := by
  induction fuel with
  | zero => intro k j buf hj; omega
  | succ m ih =>
    intro k j buf hj hok hfail
    cases j with
    | zero =>
      simp only [Nat.add_zero] at hok
      simp [retryGo, hok]
    | succ j' =>
      obtain ⟨e, he, hc⟩ := hfail k (Nat.le_refl k) (by omega)
      have hrec := ih (k + 1) j' buf (by omega) (by rw [show k + 1 + j' = k + (j' + 1) by omega]; exact hok)
        (fun i h1 h2 => hfail i (by omega) (by omega))
      simp only [retryGo, he, hc, if_pos]
      rw [hrec]
      congr 1
      omega

/-- C4: for maxTries ≥ 1, if every `getReadings` attempt raises a caught
error (`SerialException` or any `WeeWxIOError`: acknowledge, framing or
checksum failure), `get_readings_with_retry` invokes `getReadings` exactly
maxTries times and fails with `RetriesExceeded` carrying maxTries; if
attempt k < maxTries succeeds after caught failures, its payload is
returned after exactly k+1 invocations. -/
theorem retry_semantics (f : Nat → Except Err (List Nat)) (maxTries : Nat)
    (hmt : 1 ≤ maxTries) :
    ((∀ i, i < maxTries → ∃ e, f i = .error e ∧ isCaught e = true) →
      get_readings_with_retry f maxTries =
        (.error (.retriesExceeded maxTries), maxTries)) ∧
    (∀ k buf, k < maxTries → f k = .ok buf →
      (∀ i, i < k → ∃ e, f i = .error e ∧ isCaught e = true) →
      get_readings_with_retry f maxTries = (.ok buf, k + 1)) := by
  constructor
  · intro h
    have := retryGo_all_fail f maxTries maxTries 0
      (fun i h1 h2 => h i (by omega))
    simpa [get_readings_with_retry] using this
  · intro k buf hk hok hfail
    have := retryGo_succeeds f maxTries maxTries 0 k buf hk (by simpa using hok)
      (fun i h1 h2 => hfail i (by omega))
    simpa [get_readings_with_retry] using this

/-- C4, witness: all three attempts fail the acknowledge handshake →
`RetriesExceeded 3` after exactly 3 calls; and a transport whose second
attempt succeeds → payload after exactly 2 calls. -/
theorem retry_semantics_witness :
    get_readings_with_retry (fun _ => .error .ackEmpty) 3 =
      (.error (.retriesExceeded 3), 3) ∧
    get_readings_with_retry
      (fun k => if k = 0 then .error .ackEmpty else .ok [7]) 3 = (.ok [7], 2) :=
  ⟨(retry_semantics (fun _ => .error .ackEmpty) 3 (by decide)).1
      (fun i _ => ⟨.ackEmpty, rfl, rfl⟩),
   (retry_semantics (fun k => if k = 0 then .error .ackEmpty else .ok [7]) 3
      (by decide)).2 1 [7] (by decide) rfl
      (fun i hi => ⟨.ackEmpty, by interval_cases i <;> rfl, rfl⟩)⟩

/-- C5: after a successful LOOP acknowledge, `get_readings` raises the
"Invalid header" framing error whenever the header byte is not 0x01;
raises the "invalid length" framing error (carrying the received length)
whenever fewer than 17 payload bytes arrive; raises the checksum error
whenever the CRC16 (initial value 0) over the 17 payload bytes is nonzero;
and otherwise returns the validated 17-byte payload unchanged. -/
theorem get_readings_validation (h : Nat) (rest : List Nat) (w : List (List Nat)) :
    (h ≠ 1 →
      (get_readings ⟨6 :: h :: rest, w⟩).1 = .error (.invalidHeader [h]) ∧
      errKind (.invalidHeader [h]) = .framing) ∧
    (h = 1 → rest.length < 17 →
      (get_readings ⟨6 :: h :: rest, w⟩).1 = .error (.invalidLength rest.length) ∧
      errKind (.invalidLength rest.length) = .framing) ∧
    (h = 1 → 17 ≤ rest.length → crc16 (rest.take 17) 0 ≠ 0 →
      (get_readings ⟨6 :: h :: rest, w⟩).1 = .error .crcError ∧
      errKind .crcError = .checksum) ∧
    (h = 1 → 17 ≤ rest.length → crc16 (rest.take 17) 0 = 0 →
      (get_readings ⟨6 :: h :: rest, w⟩).1 = .ok (rest.take 17) ∧
      (rest.take 17).length = 17) := by
  refine ⟨fun hh => ⟨?_, rfl⟩, fun hh hlen => ⟨?_, rfl⟩,
    fun hh hlen hcrc => ⟨?_, rfl⟩, fun hh hlen hcrc => ⟨?_, ?_⟩⟩
  · simp [get_readings, SendLOOP, get_acknowledge, pWrite, hh]
  · subst hh
    have hmin : min 17 rest.length = rest.length := Nat.min_eq_right (by omega)
    simp [get_readings, SendLOOP, get_acknowledge, pWrite, List.length_take,
      hmin, Nat.ne_of_lt hlen]
  · subst hh
    have hmin : min 17 rest.length = 17 := Nat.min_eq_left hlen
    simp [get_readings, SendLOOP, get_acknowledge, pWrite, List.length_take,
      hmin, hcrc]
  · subst hh
    have hmin : min 17 rest.length = 17 := Nat.min_eq_left hlen
    simp [get_readings, SendLOOP, get_acknowledge, pWrite, List.length_take,
      hmin, hcrc]
  · simp [List.length_take, Nat.min_eq_left hlen]

/-- C5, witness: wrong header 0x02; a 16-byte short frame; a 17-byte frame
with nonzero CRC; and a 17-byte all-zero frame, whose CRC is 0, returned
unchanged. -/
theorem get_readings_validation_witness :
    ((get_readings ⟨6 :: 2 :: [], []⟩).1 = .error (.invalidHeader [2]) ∧
      errKind (.invalidHeader [2]) = .framing) ∧
    ((get_readings ⟨6 :: 1 :: List.replicate 16 0, []⟩).1 =
        .error (.invalidLength (List.replicate 16 (0 : Nat)).length) ∧
      errKind (.invalidLength (List.replicate 16 (0 : Nat)).length) = .framing) ∧
    ((get_readings ⟨6 :: 1 :: (List.replicate 16 0 ++ [1]), []⟩).1 =
        .error .crcError ∧ errKind .crcError = .checksum) ∧
    ((get_readings ⟨6 :: 1 :: List.replicate 17 0, []⟩).1 =
        .ok ((List.replicate 17 (0 : Nat)).take 17) ∧
      ((List.replicate 17 (0 : Nat)).take 17).length = 17) :=
  ⟨(get_readings_validation 2 [] []).1 (by decide),
   (get_readings_validation 1 (List.replicate 16 0) []).2.1 rfl (by decide),
   (get_readings_validation 1 (List.replicate 16 0 ++ [1]) []).2.2.1 rfl
      (by decide) (by decide),
   (get_readings_validation 1 (List.replicate 17 0) []).2.2.2 rfl
      (by decide) (by decide)⟩

/-- C10: in `get_readings`, a zero-byte header read (timeout awaiting the
frame) produces the same error constructor and the same "Invalid header"
framing classification as a wrong header byte, and never a distinct link
error. -/
theorem header_timeout_classification (b : Nat) (rest : List Nat)
    (w : List (List Nat)) (hb : b ≠ 1) :
    (get_readings ⟨[6], w⟩).1 = .error (.invalidHeader []) ∧
    (get_readings ⟨6 :: b :: rest, w⟩).1 = .error (.invalidHeader [b]) ∧
    errKind (.invalidHeader []) = errKind (.invalidHeader [b]) ∧
    errKind (.invalidHeader []) = .framing ∧
    errKind (.invalidHeader []) ≠ .link := by
  refine ⟨rfl, ?_, rfl, rfl, by decide⟩
  simp [get_readings, SendLOOP, get_acknowledge, pWrite, hb]

/-- C10, witness with header byte 0x02. -/
theorem header_timeout_witness :
    (get_readings ⟨[6], []⟩).1 = .error (.invalidHeader []) ∧
    (get_readings ⟨6 :: 2 :: [], []⟩).1 = .error (.invalidHeader [2]) ∧
    errKind (.invalidHeader []) = errKind (.invalidHeader [2]) ∧
    errKind (.invalidHeader []) = .framing ∧
    errKind (.invalidHeader []) ≠ .link :=
  header_timeout_classification 2 [] [] (by decide)

/-- The acknowledge handshake only reads; it never writes. -/
theorem ack_written (p : Port) : ((get_acknowledge p).2).written = p.written := by
  rcases hp : p.input with _ | ⟨b, rest⟩
  · simp [get_acknowledge, hp]
  · by_cases hb : b = 6 <;> simp [get_acknowledge, hp, hb]

/-- A `ReadWRD` body with a valid command byte writes exactly its command
frame, whatever the transport answers. -/
theorem readWRDgo_written (n bankval addr : Nat) (p : Port)
    (h : (n <<< 4) ||| bankval < 256) :
    ((readWRDgo n bankval addr p).2).written =
      p.written ++ [wrdFrame n bankval addr] := by
  unfold readWRDgo
  rw [if_pos h]
  rcases hga : get_acknowledge (pWrite p (wrdFrame n bankval addr)) with ⟨r, p2⟩
  have hw : p2.written = p.written ++ [wrdFrame n bankval addr] := by
    have hh := ack_written (pWrite p (wrdFrame n bankval addr))
    rw [hga] at hh
    simpa [pWrite] using hh
  cases r <;> simp [hga, hw]

/-- `ReadWRD` on bank 1 writes exactly its command frame. -/
theorem readWRD1_written (n addr : Nat) (p : Port) (h : (n <<< 4) ||| 4 < 256) :
    ((ReadWRD n 1 addr p).2).written = p.written ++ [wrdFrame n 4 addr] :=
  readWRDgo_written n 4 addr p h

/-- `WriteWRD` on bank 1 with a valid command byte writes exactly its
command frame, whatever the transport answers. -/
theorem writeWRD1_written (n addr : Nat) (data : List Nat) (p : Port)
    (h : 3 ||| (n <<< 4) < 256) :
    ((WriteWRD n 1 addr data p).2).written =
      p.written ++ [wwrFrame n 3 addr data] := by
  show ((writeWRDgo n 3 addr data p).2).written = _
  unfold writeWRDgo
  rw [if_pos h]
  have hh := ack_written (pWrite p (wwrFrame n 3 addr data))
  simpa [pWrite] using hh

/-- `get_time` writes one or both of its WRD command frames, in order, and
nothing else; when it succeeds it has written both. -/
theorem get_time_written (v : Nat → Nat → Nat → Nat → Nat → Bool) (p : Port) :
    (((get_time v p).2).written = p.written ++ [wrdFrame 6 4 0xBE] ∨
      ((get_time v p).2).written =
        p.written ++ [wrdFrame 6 4 0xBE, wrdFrame 3 4 0xC8]) ∧
    (∀ r, (get_time v p).1 = .ok r →
      ((get_time v p).2).written =
        p.written ++ [wrdFrame 6 4 0xBE, wrdFrame 3 4 0xC8]) := by
  unfold get_time
  rcases h1 : ReadWRD 6 1 0xBE p with ⟨r1, p1⟩
  have hw1 : p1.written = p.written ++ [wrdFrame 6 4 0xBE] := by
    have hh := readWRD1_written 6 0xBE p (by decide)
    rw [h1] at hh
    exact hh
  cases r1 with
  | error e => simp [hw1]
  | ok d =>
    rcases d with _ | ⟨b0, _ | ⟨b1, _ | ⟨b2, drest⟩⟩⟩
    · simp [hw1]
    · simp [hw1]
    · simp [hw1]
    · rcases h2 : ReadWRD 3 1 0xC8 p1 with ⟨r2, p2⟩
      have hw2 : p2.written =
          p.written ++ [wrdFrame 6 4 0xBE, wrdFrame 3 4 0xC8] := by
        have hh := readWRD1_written 3 0xC8 p1 (by decide)
        rw [h2] at hh
        rw [hh, hw1]
        simp
      cases r2 with
      | error e => simp [h2, hw2]
      | ok d2 =>
        rcases d2 with _ | ⟨c0, _ | ⟨c1, d2rest⟩⟩
        · simp [h2, hw2]
        · simp [h2, hw2]
        · by_cases hv : v c1 (fromBCD c0) (fromBCD b0) (fromBCD b1) (fromBCD b2) = true
          · simp [h2, hw2, hv]
          · simp [h2, hw2, hv]

/-- C8: for every target epoch (and every behaviour of the external
`localtime`/`datetime` libraries), if `set_time` issues any WWR write
command at all, then the first two transport commands it issued were the
two WRD time-read commands of `get_time` (bank 1, addresses 0xBE and
0xC8): the complete time read strictly precedes the first write. -/
theorem set_time_read_precedes_write (v : Nat → Nat → Nat → Nat → Nat → Bool)
    (lt : Int → TimeFields) (t : Int) (s : List Nat) (fr : List Nat)
    (hfr : fr ∈ ((set_time v lt t ⟨s, []⟩).2).written)
    (hwwr : fr.take 3 = [87, 87, 82]) :
    ((set_time v lt t ⟨s, []⟩).2).written.take 2 =
      [wrdFrame 6 4 0xBE, wrdFrame 3 4 0xC8] := by
  have hgw := get_time_written v ⟨s, []⟩
  rcases hgt : get_time v ⟨s, []⟩ with ⟨r1, p1⟩
  rw [hgt] at hgw
  cases r1 with
  | error e =>
    have hst : set_time v lt t ⟨s, []⟩ = (.error e, p1) := by
      unfold set_time
      rw [hgt]
    rw [hst] at hfr ⊢
    rcases hgw.1 with hw | hw <;> rw [hw] at hfr <;> simp at hfr
    · exact absurd hwwr (by rw [hfr]; decide)
    · rcases hfr with hfr | hfr <;> exact absurd hwwr (by rw [hfr]; decide)
  | ok r =>
    have hw1 : p1.written = [wrdFrame 6 4 0xBE, wrdFrame 3 4 0xC8] := by
      have hh := hgw.2 r (by simp)
      simpa using hh
    rcases hwr : WriteWRD 6 1 0xBE
        [toBCD (lt t).hour, toBCD (lt t).min, toBCD (lt t).sec] p1 with ⟨r2, p2⟩
    have hw2 : p2.written = [wrdFrame 6 4 0xBE, wrdFrame 3 4 0xC8,
        wwrFrame 6 3 0xBE [toBCD (lt t).hour, toBCD (lt t).min, toBCD (lt t).sec]] := by
      have hh := writeWRD1_written 6 0xBE
        [toBCD (lt t).hour, toBCD (lt t).min, toBCD (lt t).sec] p1 (by decide)
      rw [hwr] at hh
      rw [hh, hw1]
      simp
    cases r2 with
    | error e2 =>
      have hst : set_time v lt t ⟨s, []⟩ = (.error e2, p2) := by
        unfold set_time
        rw [hgt]
        simp only []
        rw [hwr]
      rw [hst, hw2]
      rfl
    | ok u =>
      by_cases hm : 0 ≤ (lt t).month ∧ (lt t).month < 256
      · have hst : set_time v lt t ⟨s, []⟩ =
            WriteWRD 3 1 0xC8 [toBCD (lt t).day, (lt t).month.toNat] p2 := by
          unfold set_time
          rw [hgt]
          simp only []
          rw [hwr]
          simp [hm]
        rw [hst]
        have hh := writeWRD1_written 3 0xC8
          [toBCD (lt t).day, (lt t).month.toNat] p2 (by decide)
        rw [hh, hw2]
        rfl
      · have hst : set_time v lt t ⟨s, []⟩ = (.error .valueError, p2) := by
          unfold set_time
          rw [hgt]
          simp only []
          rw [hwr]
          simp [hm]
        rw [hst, hw2]
        rfl

/-- C8, witness: a transport that acknowledges every command and answers
the two reads with a valid BCD time; `set_time` then issues its two writes,
and the first two transport commands are the two reads. -/
theorem set_time_read_precedes_write_witness :
    ((set_time (fun _ _ _ _ _ => true) (fun _ => ⟨2024, 7, 5, 1, 2, 3⟩) 0
        ⟨[6, 18, 52, 86, 6, 5, 7, 6, 6], []⟩).2).written.take 2 =
      [wrdFrame 6 4 0xBE, wrdFrame 3 4 0xC8] :=
  set_time_read_precedes_write (fun _ _ _ _ _ => true)
    (fun _ => ⟨2024, 7, 5, 1, 2, 3⟩) 0 [6, 18, 52, 86, 6, 5, 7, 6, 6]
    (wwrFrame 6 3 0xBE [toBCD 1, toBCD 2, toBCD 3]) (by decide) (by decide)

/-- XOR distributes under a bit mask. -/
theorem and_xor_dist (x y m : Nat) : (x ^^^ y) &&& m = (x &&& m) ^^^ (y &&& m) := by
  apply Nat.eq_of_testBit_eq
  intro i
  simp only [Nat.testBit_and, Nat.testBit_xor]
  cases x.testBit i <;> cases y.testBit i <;> cases m.testBit i <;> rfl

/-- XOR distributes under a left shift. -/
theorem shiftLeft_xor_dist (x y n : Nat) :
    (x ^^^ y) <<< n = (x <<< n) ^^^ (y <<< n) := by
  apply Nat.eq_of_testBit_eq
  intro i
  simp only [Nat.testBit_shiftLeft, Nat.testBit_xor]
  cases hd : decide (n ≤ i) <;>
    cases x.testBit (i - n) <;> cases y.testBit (i - n) <;> rfl

/-- XOR distributes under a right shift. -/
theorem shiftRight_xor_dist (x y n : Nat) :
    (x ^^^ y) >>> n = (x >>> n) ^^^ (y >>> n) := by
  apply Nat.eq_of_testBit_eq
  intro i
  simp [Nat.testBit_shiftRight, Nat.testBit_xor]

/-- A bit mask distributes under a left shift. -/
theorem shiftLeft_and_dist (x y n : Nat) :
    (x <<< n) &&& (y <<< n) = (x &&& y) <<< n := by
  apply Nat.eq_of_testBit_eq
  intro i
  simp only [Nat.testBit_and, Nat.testBit_shiftLeft]
  cases hd : decide (n ≤ i) <;>
    cases x.testBit (i - n) <;> cases y.testBit (i - n) <;> rfl

/-- Rearrangement of a four-fold XOR. -/
theorem xor_rearrange (a b c d : Nat) :
    (a ^^^ b) ^^^ (c ^^^ d) = (a ^^^ c) ^^^ (b ^^^ d) := by
  rw [Nat.xor_assoc, Nat.xor_assoc]
  congr 1
  rw [← Nat.xor_assoc, Nat.xor_comm b c, Nat.xor_assoc]

/-- Every CRC table entry is a 16-bit value. -/
theorem tbl_lt (x : Nat) : tbl x < 65536 := by
  by_cases hx : x < 256
  · exact (by decide : ∀ y, y < 256 → tbl y < 65536) x hx
  · have hlen : CRC16_XMODEM_TABLE.length ≤ x := by
      have h256 : CRC16_XMODEM_TABLE.length = 256 := by rfl
      omega
    unfold tbl
    rw [List.getD_eq_default _ _ hlen]
    decide

/-- One CRC step always yields a 16-bit value. -/
theorem crcStep_lt (c b : Nat) : crcStep c b < 65536 := by
  unfold crcStep
  have h1 : (c <<< 8) &&& 0xff00 < 65536 :=
    lt_of_le_of_lt Nat.and_le_right (by norm_num)
  have h2 : tbl (((c >>> 8) &&& 0xff) ^^^ b) < 65536 := tbl_lt _
  have h16 : (65536 : Nat) = 2 ^ 16 := by norm_num
  rw [h16] at h1 h2 ⊢
  exact Nat.xor_lt_two_pow h1 h2

/-- The contribution of bit k of a table index to the table value. -/
def bitTerm (a k : Nat) : Nat := if a.testBit k then tbl (1 <<< k) else 0

/-- The XOR of the per-bit contributions of a byte-sized table index. -/
def tblSpread (a : Nat) : Nat :=
  (List.range 8).foldr (fun k acc => bitTerm a k ^^^ acc) 0

/-- The per-bit contribution is XOR-linear in the index. -/
theorem bitTerm_xor (a b k : Nat) :
    bitTerm (a ^^^ b) k = bitTerm a k ^^^ bitTerm b k := by
  unfold bitTerm
  rw [Nat.testBit_xor]
  cases a.testBit k <;> cases b.testBit k <;> simp

/-- The bit-spread is XOR-linear in the index. -/
theorem foldr_bitTerm_xor (a b : Nat) (ks : List Nat) :
    ks.foldr (fun k acc => bitTerm (a ^^^ b) k ^^^ acc) 0 =
      (ks.foldr (fun k acc => bitTerm a k ^^^ acc) 0) ^^^
        (ks.foldr (fun k acc => bitTerm b k ^^^ acc) 0) := by
  induction ks with
  | nil => simp
  | cons k ks ih =>
    simp only [List.foldr_cons]
    rw [ih, bitTerm_xor]
    exact xor_rearrange _ _ _ _

/-- On byte-sized indices the CRC table agrees with its bit-spread. -/
theorem tbl_eq_spread : ∀ a, a < 256 → tbl a = tblSpread a := by decide

/-- The CRC table is XOR-linear on byte-sized indices. -/
theorem tbl_linear (a b : Nat) (ha : a < 256) (hb : b < 256) :
    tbl (a ^^^ b) = tbl a ^^^ tbl b := by
  have h8 : (256 : Nat) = 2 ^ 8 := by norm_num
  have hab : a ^^^ b < 256 := by
    rw [h8] at ha hb ⊢
    exact Nat.xor_lt_two_pow ha hb
  rw [tbl_eq_spread a ha, tbl_eq_spread b hb, tbl_eq_spread _ hab]
  exact foldr_bitTerm_xor a b (List.range 8)

/-- The CRC step is XOR-linear in the accumulator/byte pair. -/
theorem crcStep_linear (c1 c2 b1 b2 : Nat) (hb1 : b1 < 256) (hb2 : b2 < 256) :
    crcStep (c1 ^^^ c2) (b1 ^^^ b2) = crcStep c1 b1 ^^^ crcStep c2 b2 := by
  unfold crcStep
  have h8 : (256 : Nat) = 2 ^ 8 := by norm_num
  have ha1 : ((c1 >>> 8) &&& 0xff) ^^^ b1 < 256 := by
    rw [h8]
    exact Nat.xor_lt_two_pow
      (lt_of_le_of_lt Nat.and_le_right (by norm_num)) (h8 ▸ hb1)
  have ha2 : ((c2 >>> 8) &&& 0xff) ^^^ b2 < 256 := by
    rw [h8]
    exact Nat.xor_lt_two_pow
      (lt_of_le_of_lt Nat.and_le_right (by norm_num)) (h8 ▸ hb2)
  have hidx : (((c1 ^^^ c2) >>> 8) &&& 0xff) ^^^ (b1 ^^^ b2) =
      ((((c1 >>> 8) &&& 0xff)) ^^^ b1) ^^^ ((((c2 >>> 8) &&& 0xff)) ^^^ b2) := by
    rw [shiftRight_xor_dist, and_xor_dist]
    exact xor_rearrange _ _ _ _
  rw [hidx, tbl_linear _ _ ha1 ha2, shiftLeft_xor_dist, and_xor_dist]
  exact xor_rearrange _ _ _ _

/-- The CRC fold is XOR-linear: folding over the pointwise XOR of two
equal-length byte lists from the XOR of two accumulators is the XOR of the
two folds. -/
theorem foldl_crcStep_linear :
    ∀ (p e : List Nat) (c1 c2 : Nat), p.length = e.length →
      (∀ b ∈ p, b < 256) → (∀ b ∈ e, b < 256) →
      List.foldl crcStep (c1 ^^^ c2) (List.zipWith (· ^^^ ·) p e) =
        (List.foldl crcStep c1 p) ^^^ (List.foldl crcStep c2 e) := by
  intro p
  induction p with
  | nil =>
    intro e c1 c2 hl _ _
    cases e with
    | nil => rfl
    | cons x e2 => simp at hl
  | cons a p2 ih =>
    intro e c1 c2 hl hp he
    cases e with
    | nil => simp at hl
    | cons x e2 =>
      simp only [List.zipWith_cons_cons, List.foldl_cons]
      rw [crcStep_linear c1 c2 a x (hp a (by simp)) (he x (by simp))]
      exact ih e2 _ _ (by simpa using hl)
        (fun b hb => hp b (by simp [hb])) (fun b hb => he b (by simp [hb]))

/-- Masking to 16 bits is the identity on 16-bit values. -/
theorem mask16_eq_of_lt (x : Nat) (h : x < 65536) : x &&& 0xffff = x := by
  rw [show (0xffff : Nat) = 2 ^ 16 - 1 by norm_num]
  have e : (2 : Nat) ^ 16 = 65536 := by norm_num
  exact Nat.and_pow_two_sub_one_of_lt_two_pow (e ▸ h)

/-- The CRC fold keeps the accumulator a 16-bit value. -/
theorem foldl_crcStep_lt (p : List Nat) : ∀ c, c < 65536 →
    List.foldl crcStep c p < 65536 := by
  induction p with
  | nil => intro c hc; simpa using hc
  | cons a p2 ih =>
    intro c hc
    simp only [List.foldl_cons]
    exact ih _ (crcStep_lt c a)

/-- One CRC step from a zero accumulator is a plain table lookup. -/
theorem crcStep_zero (b : Nat) : crcStep 0 b = tbl b := by
  simp [crcStep]

/-- Folding zero bytes from a zero accumulator stays at zero. -/
theorem foldl_crcStep_zeros (m : Nat) :
    List.foldl crcStep 0 (List.replicate m 0) = 0 := by
  induction m with
  | zero => rfl
  | succ k ih =>
    rw [List.replicate_succ]
    simp only [List.foldl_cons]
    rw [show crcStep 0 0 = 0 by decide]
    exact ih

/-- Inverse of the low-byte column of the CRC table: `invLow[t]` is the
unique byte h with `tbl h &&& 0xff = t` (the low-byte column is a
permutation of the bytes, which `invLow_tbl` certifies). -/
def invLow : List Nat := [
  0, 35, 70, 101, 140, 175, 202, 233,
  8, 43, 78, 109, 132, 167, 194, 225,
  17, 50, 87, 116, 157, 190, 219, 248,
  25, 58, 95, 124, 149, 182, 211, 240,
  34, 1, 100, 71, 174, 141, 232, 203,
  42, 9, 108, 79, 166, 133, 224, 195,
  51, 16, 117, 86, 191, 156, 249, 218,
  59, 24, 125, 94, 183, 148, 241, 210,
  68, 103, 2, 33, 200, 235, 142, 173,
  76, 111, 10, 41, 192, 227, 134, 165,
  85, 118, 19, 48, 217, 250, 159, 188,
  93, 126, 27, 56, 209, 242, 151, 180,
  102, 69, 32, 3, 234, 201, 172, 143,
  110, 77, 40, 11, 226, 193, 164, 135,
  119, 84, 49, 18, 251, 216, 189, 158,
  127, 92, 57, 26, 243, 208, 181, 150,
  136, 171, 206, 237, 4, 39, 66, 97,
  128, 163, 198, 229, 12, 47, 74, 105,
  153, 186, 223, 252, 21, 54, 83, 112,
  145, 178, 215, 244, 29, 62, 91, 120,
  170, 137, 236, 207, 38, 5, 96, 67,
  162, 129, 228, 199, 46, 13, 104, 75,
  187, 152, 253, 222, 55, 20, 113, 82,
  179, 144, 245, 214, 63, 28, 121, 90,
  204, 239, 138, 169, 64, 99, 6, 37,
  196, 231, 130, 161, 72, 107, 14, 45,
  221, 254, 155, 184, 81, 114, 23, 52,
  213, 246, 147, 176, 89, 122, 31, 60,
  238, 205, 168, 139, 98, 65, 36, 7,
  230, 197, 160, 131, 106, 73, 44, 15,
  255, 220, 185, 154, 115, 80, 53, 22,
  247, 212, 177, 146, 123, 88, 61, 30]

/-- `invLow` inverts the low-byte column of the CRC table. -/
theorem invLow_tbl : ∀ h, h < 256 → invLow.getD (tbl h &&& 0xff) 0 = h := by
  decide

/-- Explicit inverse of the map `c ↦ crcStep c 0` on 16-bit values. -/
def sInv (d : Nat) : Nat :=
  ((d ^^^ tbl (invLow.getD (d &&& 0xff) 0)) >>> 8) ^^^
    ((invLow.getD (d &&& 0xff) 0) <<< 8)

/-- A value shifted left by a byte has zero low byte. -/
theorem lowbyte_shiftLeft8 (x : Nat) : (x <<< 8) &&& 0xff = 0 := by
  rw [show (0xff : Nat) = 2 ^ 8 - 1 by norm_num,
    Nat.and_pow_two_sub_one_eq_mod, Nat.shiftLeft_eq]
  exact Nat.mul_mod_left x (2 ^ 8)

/-- The high byte of a 16-bit value is a byte. -/
theorem hi_lt (c : Nat) (hc : c < 65536) : c >>> 8 < 256 := by
  rw [Nat.shiftRight_eq_div_pow]
  have e : (2 : Nat) ^ 8 = 256 := by norm_num
  rw [e]
  omega

/-- Masking the high byte of a 16-bit value is the identity. -/
theorem hi_and_eq (c : Nat) (hc : c < 65536) : (c >>> 8) &&& 0xff = c >>> 8 := by
  have h := hi_lt c hc
  rw [show (0xff : Nat) = 2 ^ 8 - 1 by norm_num]
  exact Nat.and_pow_two_sub_one_of_lt_two_pow
    (by rw [show (2 : Nat) ^ 8 = 256 by norm_num]; exact h)

/-- Shifting by a byte and masking to the high byte keeps only the low
byte, shifted. -/
theorem shiftLeft8_masked (c : Nat) : (c <<< 8) &&& 0xff00 = (c &&& 0xff) <<< 8 := by
  rw [show (0xff00 : Nat) = 255 <<< 8 by rfl]
  exact shiftLeft_and_dist c 255 8

/-- Splitting any value at bit 8 and recombining with XOR is the identity. -/
theorem recompose (c : Nat) : ((c >>> 8) <<< 8) ^^^ (c &&& 0xff) = c := by
  apply Nat.eq_of_testBit_eq
  intro i
  have h255 : ∀ k, (0xff : Nat).testBit k = decide (k < 8) := by
    intro k
    rw [show (0xff : Nat) = 2 ^ 8 - 1 by norm_num]
    exact Nat.testBit_two_pow_sub_one 8 k
  simp only [Nat.testBit_xor, Nat.testBit_shiftLeft, Nat.testBit_shiftRight,
    Nat.testBit_and, h255]
  by_cases h8 : 8 ≤ i
  · have he : 8 + (i - 8) = i := by omega
    simp [h8, he, show ¬i < 8 by omega]
  · simp [h8, show i < 8 by omega]

/-- `sInv` is a left inverse of `c ↦ crcStep c 0` on 16-bit values. -/
theorem sInv_crcStep (c : Nat) (hc : c < 65536) : sInv (crcStep c 0) = c := by
  have hstep : crcStep c 0 = ((c &&& 0xff) <<< 8) ^^^ tbl (c >>> 8) := by
    unfold crcStep
    rw [shiftLeft8_masked, hi_and_eq c hc, Nat.xor_zero]
  have hlow : (crcStep c 0) &&& 0xff = tbl (c >>> 8) &&& 0xff := by
    rw [hstep, and_xor_dist, lowbyte_shiftLeft8, Nat.zero_xor]
  have hinv : invLow.getD ((crcStep c 0) &&& 0xff) 0 = c >>> 8 := by
    rw [hlow]
    exact invLow_tbl _ (hi_lt c hc)
  unfold sInv
  rw [hinv, hstep, Nat.xor_assoc, Nat.xor_self, Nat.xor_zero,
    Nat.shiftLeft_shiftRight, Nat.xor_comm]
  exact recompose c

/-- The map `c ↦ crcStep c 0` has trivial kernel on 16-bit values. -/
theorem crcStep_zero_inj (c : Nat) (hc : c < 65536) (h : crcStep c 0 = 0) :
    c = 0 := by
  have h1 := sInv_crcStep c hc
  rw [h, show sInv 0 = 0 by decide] at h1
  exact h1.symm

/-- Folding trailing zero bytes preserves a nonzero 16-bit accumulator. -/
theorem foldl_zeros_ne (m : Nat) : ∀ c, c < 65536 → c ≠ 0 →
    List.foldl crcStep c (List.replicate m 0) ≠ 0 ∧
      List.foldl crcStep c (List.replicate m 0) < 65536 := by
  induction m with
  | zero => intro c hc h0; simpa using ⟨h0, hc⟩
  | succ k ih =>
    intro c hc h0
    rw [List.replicate_succ]
    simp only [List.foldl_cons]
    exact ih (crcStep c 0) (crcStep_lt c 0)
      (fun h => h0 (crcStep_zero_inj c hc h))

/-- XOR-ing a list with as many zero bytes is the identity. -/
theorem zipWith_xor_zeros (p : List Nat) :
    List.zipWith (· ^^^ ·) p (List.replicate p.length 0) = p := by
  induction p with
  | nil => rfl
  | cons a p2 ih => simp [List.replicate_succ, ih]

/-- Flipping position i of a list by XOR is pointwise XOR with the
one-position error vector. -/
theorem set_eq_zipWith (p : List Nat) :
    ∀ (i v : Nat), i < p.length →
      p.set i (p.getD i 0 ^^^ v) =
        List.zipWith (· ^^^ ·) p
          (List.replicate i 0 ++ v :: List.replicate (p.length - i - 1) 0) := by
  induction p with
  | nil => intro i v hi; simp at hi
  | cons a p2 ih =>
    intro i v hi
    cases i with
    | zero =>
      simp only [List.replicate_zero, List.nil_append, List.getD_cons_zero,
        List.set_cons_zero, List.zipWith_cons_cons]
      rw [show (a :: p2).length - 0 - 1 = p2.length by simp]
      rw [zipWith_xor_zeros]
    | succ i2 =>
      have hi2 : i2 < p2.length := by simpa using hi
      simp only [List.set_cons_succ, List.getD_cons_succ, List.replicate_succ,
        List.cons_append, List.zipWith_cons_cons]
      rw [show (a :: p2).length - (i2 + 1) - 1 = p2.length - i2 - 1 by
        simp [List.length_cons]]
      rw [Nat.xor_zero]
      congr 1
      exact ih i2 v hi2

/-- C2: for every byte sequence on which the implemented CRC16 (polynomial
0x1021, initial value 0, table-driven) evaluates to 0, flipping exactly one
bit of one byte makes the CRC16 nonzero: the routine detects every
single-bit error in a frame that validates to 0. -/
theorem crc16_single_bit_error (p : List Nat) (hb : ∀ b ∈ p, b < 256)
    (h0 : crc16 p 0 = 0) (i j : Nat) (hi : i < p.length) (hj : j < 8) :
    crc16 (p.set i (p.getD i 0 ^^^ 1 <<< j)) 0 ≠ 0 := by
  have hfl : List.foldl crcStep 0 p < 65536 := foldl_crcStep_lt p 0 (by norm_num)
  have hf0 : List.foldl crcStep 0 p = 0 := by
    have h := h0
    unfold crc16 at h
    rwa [mask16_eq_of_lt _ hfl] at h
  have hjlt : 1 <<< j < 256 := by
    rw [Nat.shiftLeft_eq, Nat.one_mul]
    calc 2 ^ j ≤ 2 ^ 7 := Nat.pow_le_pow_right (by norm_num) (by omega)
    _ < 256 := by norm_num
  set e : List Nat :=
    List.replicate i 0 ++ (1 <<< j) :: List.replicate (p.length - i - 1) 0
    with he
  have hlen : p.length = e.length := by
    rw [he]
    simp
    omega
  have hbe : ∀ b ∈ e, b < 256 := by
    intro b hbmem
    rw [he] at hbmem
    simp only [List.mem_append, List.mem_cons, List.mem_replicate] at hbmem
    rcases hbmem with ⟨_, rfl⟩ | rfl | ⟨_, rfl⟩
    · norm_num
    · exact hjlt
    · norm_num
  rw [set_eq_zipWith p i (1 <<< j) hi, ← he]
  unfold crc16
  have hlin := foldl_crcStep_linear p e 0 0 hlen hb hbe
  simp only [Nat.xor_self] at hlin
  rw [hlin, hf0, Nat.zero_xor]
  have hev : List.foldl crcStep 0 e ≠ 0 ∧ List.foldl crcStep 0 e < 65536 := by
    rw [he, List.foldl_append, foldl_crcStep_zeros]
    simp only [List.foldl_cons]
    rw [crcStep_zero]
    exact foldl_zeros_ne _ _ (tbl_lt _)
      ((by decide : ∀ k, k < 8 → tbl (1 <<< k) ≠ 0) j hj)
  rw [mask16_eq_of_lt _ hev.2]
  exact hev.1

/-- C2, witness: the one-byte frame [0] has CRC 0; flipping its bit 0
yields [1], whose CRC is 0x1021 ≠ 0. -/
theorem crc16_single_bit_error_witness :
    crc16 (([0] : List Nat).set 0 (([0] : List Nat).getD 0 0 ^^^ 1 <<< 0)) 0 ≠ 0 :=
  crc16_single_bit_error [0] (by decide) (by decide) 0 0 (by decide) (by decide)

end WmII
